import Mathlib

/-!
Verification of the request/response data model of the clust
create-a-message example.

The example source (src/examples/create_a_message.rs) contains the
function print_response_text and the request assembly in main; the
library types it uses (ClaudeModel, MaxTokens, Content, ContentBlock,
Message, MessagesRequestBody, MessagesResponseBody, SystemPrompt,
Client) are external to the excerpt, so they are modelled from the
specification where noted.
-/

/-- Modelled from the spec: the error taxonomy of section 7; the library
error type is not part of the excerpt. -/
inductive ClustError
  | InvalidMaxTokens
  | MissingCredential
  | AuthenticationFailed
  | ValidationRejected
  | TransportError
  | MalformedResponse
  | UnknownBlockKind
  deriving DecidableEq, Repr

/-- Modelled from the spec: the enumerated set of supported model
identifiers; the library enum is not part of the excerpt. The example
selects Claude3Haiku20240307. -/
inductive ClaudeModel
  | Claude3Opus20240229
  | Claude3Sonnet20240229
  | Claude3Haiku20240307
  | Claude35Sonnet20240620
  deriving DecidableEq, Repr

/-- Modelled from the spec: the static lookup table from model to
model-specific max-token ceiling (section 4.1). -/
def ClaudeModel.maxTokensCeiling : ClaudeModel → Int
  | .Claude3Opus20240229 => 4096
  | .Claude3Sonnet20240229 => 4096
  | .Claude3Haiku20240307 => 4096
  | .Claude35Sonnet20240620 => 8192

/-- The validated max-token bound; the stored value. -/
structure MaxTokens where
  value : Int
  deriving DecidableEq, Repr

/-- Modelled from the spec: the validating factory of section 4.1.
Fails with InvalidMaxTokens when the requested bound is nonpositive or
exceeds the model-specific ceiling; otherwise stores the request. -/
def MaxTokens.new (requested : Int) (model : ClaudeModel) :
    Except ClustError MaxTokens :=
  if requested ≤ 0 ∨ requested > model.maxTokensCeiling then
    .error .InvalidMaxTokens
  else
    .ok { value := requested }

/-- A text content block: a discriminator tag and a string payload
(section 3 of the spec; destructured in print_response_text). -/
structure TextContentBlock where
  _type : String
  text : String
  deriving DecidableEq, Repr

/-- One unit of model output, tagged by kind. The Text variant is the
one the example consumes; other kinds are carried by the fallback
variant with their discriminator tag (spec sections 3 and 9). -/
inductive ContentBlock
  | Text (block : TextContentBlock)
  | Unknown (tag : String)
  deriving DecidableEq, Repr

/-- The two legal shapes of a response body content field. -/
inductive Content
  | SingleText (text : String)
  | MultipleBlock (blocks : List ContentBlock)
  deriving DecidableEq, Repr

/-- The parsed response body; metadata beyond content is out of scope
(spec section 3). -/
structure MessagesResponseBody where
  content : Content
  deriving DecidableEq, Repr

/-- The loop of print_response_text (src lines 38-43): iterate the
blocks, print one line per Text block, ignore every other variant.
The printed lines are returned in order of the println calls. -/
def printBlockLines : List ContentBlock → List String
  | [] => []
  | ContentBlock.Text blk :: rest =>
      ("Multi-block response text: " ++ blk.text) :: printBlockLines rest
  | ContentBlock.Unknown _ :: rest => printBlockLines rest

/-- Embedding of print_response_text (src lines 34-48), with stdout
modelled as the returned list of printed lines. The emptiness guard of
line 37 is kept as in the source. -/
def print_response_text (response : MessagesResponseBody) : List String :=
  match response.content with
  | Content.MultipleBlock response_vector =>
      if ¬ response_vector.isEmpty then
        printBlockLines response_vector
      else
        []
  | Content.SingleText text => ["Single text response: " ++ text]

/-- Modelled from the spec: the extraction helper of section 4.3 (the
minimal behavior demonstrated by print_response_text): every text
payload found, in encounter order, non-text blocks skipped silently. -/
def Content.extract_text : Content → List String
  | Content.SingleText s => [s]
  | Content.MultipleBlock blocks =>
      blocks.filterMap fun b =>
        match b with
        | ContentBlock.Text blk => some blk.text
        | ContentBlock.Unknown _ => none

/-- A JSON-shaped wire value (spec section 6); only the shapes the wire
payloads use are needed. -/
inductive JsonValue
  | str (s : String)
  | num (n : Int)
  | bool (b : Bool)
  | arr (elems : List JsonValue)
  | obj (fields : List (String × JsonValue))
  | null

/-- First value bound to the given key in an object field list. -/
def getField (name : String) : List (String × JsonValue) → Option JsonValue
  | [] => none
  | (k, v) :: rest => if k = name then some v else getField name rest

/-- Modelled from the spec: decoding of one array element of the wire
content field (sections 4.3 and 6): the element must be an object with
a string type discriminator; for type text a string text field is
required; a recognized object shape with any other tag is kept as the
fallback variant (lenient policy, as demonstrated by the example). -/
def parseContentBlock : JsonValue → Except ClustError ContentBlock
  | JsonValue.obj fields =>
      match getField "type" fields with
      | some (JsonValue.str tag) =>
          if tag = "text" then
            match getField "text" fields with
            | some (JsonValue.str s) =>
                .ok (ContentBlock.Text { _type := "text", text := s })
            | _ => .error .MalformedResponse
          else
            .ok (ContentBlock.Unknown tag)
      | _ => .error .MalformedResponse
  | _ => .error .MalformedResponse

/-- Decoding of a sequence of wire content blocks, in order; the first
malformed element fails the parse. -/
def parseContentBlocks : List JsonValue → Except ClustError (List ContentBlock)
  | [] => .ok []
  | j :: rest =>
      match parseContentBlock j with
      | .error e => .error e
      | .ok b =>
          match parseContentBlocks rest with
          | .error e => .error e
          | .ok bs => .ok (b :: bs)

/-- Modelled from the spec: response deserialization (sections 4.3 and
6). The payload must be an object with a content field that is either a
bare string (SingleText) or an array of recognized block objects
(MultipleBlock); any other shape is MalformedResponse. -/
def parseResponse (payload : JsonValue) : Except ClustError MessagesResponseBody :=
  match payload with
  | JsonValue.obj fields =>
      match getField "content" fields with
      | some (JsonValue.str s) => .ok { content := Content.SingleText s }
      | some (JsonValue.arr elems) =>
          match parseContentBlocks elems with
          | .error e => .error e
          | .ok blocks => .ok { content := Content.MultipleBlock blocks }
      | _ => .error .MalformedResponse
  | _ => .error .MalformedResponse

/-- Whether one wire array element is of the recognized object shape
(spec section 6): an object with a string type discriminator and, for
type text, a string text field. -/
def blockShaped : JsonValue → Bool
  | JsonValue.obj fields =>
      match getField "type" fields with
      | some (JsonValue.str tag) =>
          if tag = "text" then
            match getField "text" fields with
            | some (JsonValue.str _) => true
            | _ => false
          else
            true
      | _ => false
  | _ => false

/-- Whether a wire payload has the recognized response shape (spec
section 6): an object whose content field is a string or an array of
recognized block objects. -/
def responseShaped : JsonValue → Bool
  | JsonValue.obj fields =>
      match getField "content" fields with
      | some (JsonValue.str _) => true
      | some (JsonValue.arr elems) => elems.all blockShaped
      | _ => false
  | _ => false

/-- The role of a conversational message (spec section 3). -/
inductive Role
  | user
  | assistant
  deriving DecidableEq, Repr

/-- A role paired with text content (spec section 3). -/
structure Message where
  role : Role
  content : String
  deriving DecidableEq, Repr

/-- The user-message constructor used at src line 60. -/
def Message.user (text : String) : Message :=
  { role := Role.user, content := text }

/-- An optional instruction string shaping model behavior. -/
structure SystemPrompt where
  value : String
  deriving DecidableEq, Repr

/-- The constructor used at src line 64. -/
def SystemPrompt.new (s : String) : SystemPrompt :=
  { value := s }

/-- The request aggregate of src lines 65-71: model, ordered messages,
validated max-token bound, optional system prompt; the remaining
optional generation parameters (represented by stream) are defaulted
when absent. -/
structure MessagesRequestBody where
  model : ClaudeModel
  messages : List Message
  max_tokens : MaxTokens
  system : Option SystemPrompt
  stream : Option Bool
  deriving DecidableEq, Repr

/-- The assembly of src lines 65-71: required fields given, every
remaining field defaulted. A total function: building never fails. -/
def MessagesRequestBody.assemble (model : ClaudeModel) (messages : List Message)
    (max_tokens : MaxTokens) (system : Option SystemPrompt) : MessagesRequestBody :=
  { model := model, messages := messages, max_tokens := max_tokens,
    system := system, stream := none }

/-- Wire name of a model identifier. -/
def modelToString : ClaudeModel → String
  | ClaudeModel.Claude3Opus20240229 => "claude-3-opus-20240229"
  | ClaudeModel.Claude3Sonnet20240229 => "claude-3-sonnet-20240229"
  | ClaudeModel.Claude3Haiku20240307 => "claude-3-haiku-20240307"
  | ClaudeModel.Claude35Sonnet20240620 => "claude-3-5-sonnet-20240620"

/-- Model identifier from its wire name. -/
def stringToModel (s : String) : Option ClaudeModel :=
  if s = "claude-3-opus-20240229" then some ClaudeModel.Claude3Opus20240229
  else if s = "claude-3-sonnet-20240229" then some ClaudeModel.Claude3Sonnet20240229
  else if s = "claude-3-haiku-20240307" then some ClaudeModel.Claude3Haiku20240307
  else if s = "claude-3-5-sonnet-20240620" then some ClaudeModel.Claude35Sonnet20240620
  else none

/-- Wire name of a role. -/
def roleToString : Role → String
  | Role.user => "user"
  | Role.assistant => "assistant"

/-- Role from its wire name. -/
def stringToRole (s : String) : Option Role :=
  if s = "user" then some Role.user
  else if s = "assistant" then some Role.assistant
  else none

/-- Modelled from the spec: wire encoding of one message. -/
def encodeMessage (m : Message) : JsonValue :=
  JsonValue.obj [("role", JsonValue.str (roleToString m.role)),
                 ("content", JsonValue.str m.content)]

/-- Modelled from the spec: wire encoding of a request body (section 8
round-trip property); absent optional fields are omitted from the wire
object. -/
def encodeRequestBody (r : MessagesRequestBody) : JsonValue :=
  JsonValue.obj
    ([("model", JsonValue.str (modelToString r.model)),
      ("messages", JsonValue.arr (r.messages.map encodeMessage)),
      ("max_tokens", JsonValue.num r.max_tokens.value)]
     ++ (match r.system with
         | some s => [("system", JsonValue.str s.value)]
         | none => [])
     ++ (match r.stream with
         | some b => [("stream", JsonValue.bool b)]
         | none => []))

/-- Decoding of one wire message. -/
def decodeMessage : JsonValue → Option Message
  | JsonValue.obj fields =>
      match getField "role" fields, getField "content" fields with
      | some (JsonValue.str r), some (JsonValue.str c) =>
          match stringToRole r with
          | some role => some { role := role, content := c }
          | none => none
      | _, _ => none
  | _ => none

/-- Decoding of a wire message sequence, in order. -/
def decodeMessages : List JsonValue → Option (List Message)
  | [] => some []
  | j :: rest =>
      match decodeMessage j with
      | none => none
      | some m =>
          match decodeMessages rest with
          | none => none
          | some ms => some (m :: ms)

/-- Decoding of the optional system field: absent means no prompt. -/
def decodeSystem : Option JsonValue → Option (Option SystemPrompt)
  | none => some none
  | some (JsonValue.str s) => some (some { value := s })
  | some _ => none

/-- Decoding of the optional stream field: absent means default. -/
def decodeStream : Option JsonValue → Option (Option Bool)
  | none => some none
  | some (JsonValue.bool b) => some (some b)
  | some _ => none

/-- Modelled from the spec: wire decoding of a request body (section 8
round-trip property). -/
def decodeRequestBody : JsonValue → Option MessagesRequestBody
  | JsonValue.obj fields =>
      match getField "model" fields, getField "messages" fields,
            getField "max_tokens" fields with
      | some (JsonValue.str ms), some (JsonValue.arr msgJs), some (JsonValue.num n) =>
          match stringToModel ms, decodeMessages msgJs,
                decodeSystem (getField "system" fields),
                decodeStream (getField "stream" fields) with
          | some model, some messages, some system, some stream =>
              some { model := model, messages := messages,
                     max_tokens := { value := n }, system := system,
                     stream := stream }
          | _, _, _, _ => none
      | _, _, _ => none
  | _ => none

/-- The API client, holding the externally supplied credential. -/
structure Client where
  api_key : String
  deriving DecidableEq, Repr

/-- Modelled from the spec: client construction from the external
credential provider (section 6); the provider result is passed in as an
optional secret string, and absence fails construction with
MissingCredential (src line 56 calls this before any request exists). -/
def Client.from_env (env_api_key : Option String) : Except ClustError Client :=
  match env_api_key with
  | some key => .ok { api_key := key }
  | none => .error .MissingCredential

/-- C1: for every supported model M and every integer n with 0 < n and
n at most the model-specific ceiling of M, MaxTokens.new n M succeeds
and the resulting MaxTokens stores exactly n. -/
theorem maxTokens_new_succeeds (model : ClaudeModel) (n : Int)
    (hpos : 0 < n) (hle : n ≤ model.maxTokensCeiling) :
    MaxTokens.new n model = Except.ok { value := n } := by
  have h : ¬ (n ≤ 0 ∨ n > model.maxTokensCeiling) := by
    push_neg
    exact ⟨hpos, hle⟩
  unfold MaxTokens.new
  rw [if_neg h]

theorem maxTokens_new_succeeds_witness :
    0 < (1024 : Int) ∧ (1024 : Int) ≤ ClaudeModel.Claude3Haiku20240307.maxTokensCeiling ∧
    MaxTokens.new 1024 ClaudeModel.Claude3Haiku20240307 = Except.ok { value := 1024 } :=
  ⟨by decide, by decide,
   maxTokens_new_succeeds ClaudeModel.Claude3Haiku20240307 1024 (by decide) (by decide)⟩

/-- C2: for every supported model M and every integer n with n ≤ 0 or
n above the model-specific ceiling of M, MaxTokens.new n M fails with
exactly the InvalidMaxTokens error. -/
theorem maxTokens_new_invalid (model : ClaudeModel) (n : Int)
    (h : n ≤ 0 ∨ n > model.maxTokensCeiling) :
    MaxTokens.new n model = Except.error ClustError.InvalidMaxTokens := by
  unfold MaxTokens.new
  rw [if_pos h]

theorem maxTokens_new_invalid_witness :
    ((0 : Int) ≤ 0 ∨ (0 : Int) > ClaudeModel.Claude3Haiku20240307.maxTokensCeiling) ∧
    MaxTokens.new 0 ClaudeModel.Claude3Haiku20240307 =
      Except.error ClustError.InvalidMaxTokens :=
  ⟨Or.inl (by decide),
   maxTokens_new_invalid ClaudeModel.Claude3Haiku20240307 0 (Or.inl (by decide))⟩

/-- C3: parsing the payload whose content array holds a text block a, a
tool-use block, and a text block b yields MultipleBlock with exactly the
three decoded elements, and text extraction yields a then b: the
non-text block is skipped silently and encounter order is preserved. -/
theorem parse_three_block_payload :
    parseResponse (JsonValue.obj [("content", JsonValue.arr
        [JsonValue.obj [("type", JsonValue.str "text"), ("text", JsonValue.str "a")],
         JsonValue.obj [("type", JsonValue.str "tool_use"), ("id", JsonValue.str "x")],
         JsonValue.obj [("type", JsonValue.str "text"), ("text", JsonValue.str "b")]])]) =
      Except.ok { content := Content.MultipleBlock [
        ContentBlock.Text { _type := "text", text := "a" },
        ContentBlock.Unknown "tool_use",
        ContentBlock.Text { _type := "text", text := "b" }] } ∧
    (Content.MultipleBlock [
        ContentBlock.Text { _type := "text", text := "a" },
        ContentBlock.Unknown "tool_use",
        ContentBlock.Text { _type := "text", text := "b" }]).extract_text = ["a", "b"] :=
  ⟨rfl, rfl⟩

/-- C4: parsing the payload whose content field is the bare string hello
yields SingleText hello, and text extraction yields exactly that one
string. -/
theorem parse_single_text_payload :
    parseResponse (JsonValue.obj [("content", JsonValue.str "hello")]) =
      Except.ok { content := Content.SingleText "hello" } ∧
    (Content.SingleText "hello").extract_text = ["hello"] :=
  ⟨rfl, rfl⟩

/-- C5: parsing the payload whose content field is the empty array
succeeds with MultipleBlock of the empty sequence, and text extraction
yields the empty sequence. -/
theorem parse_empty_array_payload :
    parseResponse (JsonValue.obj [("content", JsonValue.arr [])]) =
      Except.ok { content := Content.MultipleBlock [] } ∧
    (Content.MultipleBlock []).extract_text = [] :=
  ⟨rfl, rfl⟩

/-- C8: when the external credential is absent, client construction
fails with MissingCredential at construction time; when it is present,
construction succeeds, so the failure is decided before any send. -/
theorem from_env_missing_credential :
    Client.from_env none = Except.error ClustError.MissingCredential ∧
    ∀ key : String, Client.from_env (some key) = Except.ok { api_key := key } :=
  ⟨rfl, fun _ => rfl⟩

/-- C9 counterexample: the claimed invariant that every RequestBody has
a non-empty message sequence fails: the aggregate is freely
constructible (and assembled without any check), so a body whose
message list is empty exists. -/
theorem requestBody_nonempty_invariant_cex :
    ¬ ∀ r : MessagesRequestBody, r.messages ≠ [] :=
  fun h =>
    h { model := ClaudeModel.Claude3Haiku20240307, messages := [],
        max_tokens := { value := 1024 }, system := none, stream := none } rfl

/-- C9 amended: assembling a RequestBody from already-constructed
fields never fails (it is a total function) and stores exactly the
given fields with the remaining fields defaulted; its message sequence
is non-empty whenever the supplied message list is non-empty, but
non-emptiness is not an invariant of every RequestBody. -/
theorem assemble_requestBody (model : ClaudeModel) (messages : List Message)
    (max_tokens : MaxTokens) (system : Option SystemPrompt)
    (h : messages ≠ []) :
    (MessagesRequestBody.assemble model messages max_tokens system).messages ≠ [] ∧
    (MessagesRequestBody.assemble model messages max_tokens system).model = model ∧
    (MessagesRequestBody.assemble model messages max_tokens system).messages = messages ∧
    (MessagesRequestBody.assemble model messages max_tokens system).max_tokens = max_tokens ∧
    (MessagesRequestBody.assemble model messages max_tokens system).system = system ∧
    (MessagesRequestBody.assemble model messages max_tokens system).stream = none :=
  ⟨h, rfl, rfl, rfl, rfl, rfl⟩

theorem assemble_requestBody_witness :
    [Message.user "m"] ≠ ([] : List Message) ∧
    ((MessagesRequestBody.assemble ClaudeModel.Claude3Haiku20240307 [Message.user "m"]
        { value := 1024 } (some (SystemPrompt.new "p"))).messages ≠ [] ∧
     (MessagesRequestBody.assemble ClaudeModel.Claude3Haiku20240307 [Message.user "m"]
        { value := 1024 } (some (SystemPrompt.new "p"))).model =
          ClaudeModel.Claude3Haiku20240307 ∧
     (MessagesRequestBody.assemble ClaudeModel.Claude3Haiku20240307 [Message.user "m"]
        { value := 1024 } (some (SystemPrompt.new "p"))).messages = [Message.user "m"] ∧
     (MessagesRequestBody.assemble ClaudeModel.Claude3Haiku20240307 [Message.user "m"]
        { value := 1024 } (some (SystemPrompt.new "p"))).max_tokens = { value := 1024 } ∧
     (MessagesRequestBody.assemble ClaudeModel.Claude3Haiku20240307 [Message.user "m"]
        { value := 1024 } (some (SystemPrompt.new "p"))).system =
          some (SystemPrompt.new "p") ∧
     (MessagesRequestBody.assemble ClaudeModel.Claude3Haiku20240307 [Message.user "m"]
        { value := 1024 } (some (SystemPrompt.new "p"))).stream = none) :=
  ⟨by simp, assemble_requestBody ClaudeModel.Claude3Haiku20240307 [Message.user "m"]
    { value := 1024 } (some (SystemPrompt.new "p")) (by simp)⟩

/-- One printed line per Text block, none for any other variant. -/
def blockLine : ContentBlock → Option String
  | ContentBlock.Text blk => some ("Multi-block response text: " ++ blk.text)
  | ContentBlock.Unknown _ => none

theorem printBlockLines_eq_filterMap (blocks : List ContentBlock) :
    printBlockLines blocks = blocks.filterMap blockLine := by
  induction blocks with
  | nil => rfl
  | cons b rest ih =>
      cases b <;> simp [printBlockLines, blockLine, List.filterMap_cons, ih]

/-- C10: print_response_text is total over every Content value (the
embedding is a total function, so no input can make it crash), and its
output is exactly one line per Text block in encounter order when the
content is MultipleBlock (other block variants are silently ignored,
and the emptiness guard changes nothing), and exactly one line carrying
the string when the content is SingleText. -/
theorem print_response_text_spec (response : MessagesResponseBody) :
    print_response_text response =
      match response.content with
      | Content.MultipleBlock blocks => blocks.filterMap blockLine
      | Content.SingleText text => ["Single text response: " ++ text] := by
  obtain ⟨content⟩ := response
  cases content with
  | SingleText s => rfl
  | MultipleBlock blocks =>
      cases blocks with
      | nil => simp [print_response_text, List.isEmpty]
      | cons b rest =>
          simp [print_response_text, List.isEmpty, printBlockLines_eq_filterMap]

theorem parseContentBlock_of_unshaped (j : JsonValue)
    (h : blockShaped j = false) :
    parseContentBlock j = Except.error ClustError.MalformedResponse := by
  cases j with
  | obj fields =>
      simp only [blockShaped] at h
      simp only [parseContentBlock]
      cases hty : getField "type" fields with
      | none => simp
      | some v =>
          simp only [hty] at h
          cases v with
          | str tag =>
              by_cases htag : tag = "text"
              · subst htag
                simp only [if_pos rfl] at h ⊢
                cases htx : getField "text" fields with
                | none => simp
                | some w =>
                    simp only [htx] at h
                    cases w <;> simp_all
              · simp [htag] at h
          | num n => simp
          | bool b => simp
          | arr es => simp
          | obj fs => simp
          | null => simp
  | str s => rfl
  | num n => rfl
  | bool b => rfl
  | arr es => rfl
  | null => rfl

theorem parseContentBlock_of_shaped (j : JsonValue)
    (h : blockShaped j = true) :
    ∃ b : ContentBlock, parseContentBlock j = Except.ok b := by
  cases j with
  | obj fields =>
      simp only [blockShaped] at h
      simp only [parseContentBlock]
      cases hty : getField "type" fields with
      | none => simp only [hty] at h; simp at h
      | some v =>
          simp only [hty] at h
          cases v with
          | str tag =>
              by_cases htag : tag = "text"
              · subst htag
                simp only [if_pos rfl] at h ⊢
                cases htx : getField "text" fields with
                | none => rw [htx] at h; simp at h
                | some w =>
                    rw [htx] at h
                    cases w <;> simp_all
              · simp [htag]
          | num n => simp at h
          | bool b => simp at h
          | arr es => simp at h
          | obj fs => simp at h
          | null => simp at h
  | str s => simp [blockShaped] at h
  | num n => simp [blockShaped] at h
  | bool b => simp [blockShaped] at h
  | arr es => simp [blockShaped] at h
  | null => simp [blockShaped] at h

theorem parseContentBlocks_of_unshaped (elems : List JsonValue)
    (h : elems.all blockShaped = false) :
    parseContentBlocks elems = Except.error ClustError.MalformedResponse := by
  induction elems with
  | nil => exact absurd h (by simp)
  | cons j rest ih =>
      simp only [List.all_cons, Bool.and_eq_false_iff] at h
      simp only [parseContentBlocks]
      cases hbj : blockShaped j with
      | false => rw [parseContentBlock_of_unshaped j hbj]
      | true =>
          obtain ⟨b, hb⟩ := parseContentBlock_of_shaped j hbj
          rw [hb]
          have hrest : rest.all blockShaped = false := by
            cases h with
            | inl hl => rw [hbj] at hl; exact absurd hl (by simp)
            | inr hr => exact hr
          rw [ih hrest]

/-- C6: for every raw payload whose content field is missing, or is
neither a string nor an array of the recognized object shape, parsing
the response fails with exactly the MalformedResponse error; the parser
is a total function, so no payload can make it crash. -/
theorem parse_malformed_payload (j : JsonValue)
    (h : responseShaped j = false) :
    parseResponse j = Except.error ClustError.MalformedResponse := by
  cases j with
  | obj fields =>
      simp only [responseShaped] at h
      cases hc : getField "content" fields with
      | none => simp [parseResponse, hc]
      | some v =>
          try simp only [hc] at h
          cases v with
          | str s => simp at h
          | arr elems =>
              have h2 : elems.all blockShaped = false := h
              simp [parseResponse, hc, parseContentBlocks_of_unshaped elems h2]
          | num n => simp [parseResponse, hc]
          | bool b => simp [parseResponse, hc]
          | obj fs => simp [parseResponse, hc]
          | null => simp [parseResponse, hc]
  | str s => rfl
  | num n => rfl
  | bool b => rfl
  | arr es => rfl
  | null => rfl

theorem parse_malformed_payload_witness :
    responseShaped (JsonValue.obj []) = false ∧
    parseResponse (JsonValue.obj []) = Except.error ClustError.MalformedResponse :=
  ⟨rfl, parse_malformed_payload (JsonValue.obj []) rfl⟩

theorem stringToModel_modelToString (m : ClaudeModel) :
    stringToModel (modelToString m) = some m := by
  cases m <;> decide

theorem stringToRole_roleToString (r : Role) :
    stringToRole (roleToString r) = some r := by
  cases r <;> decide

theorem decodeMessage_encodeMessage (m : Message) :
    decodeMessage (encodeMessage m) = some m := by
  obtain ⟨role, content⟩ := m
  cases role <;>
    simp [encodeMessage, decodeMessage, getField, stringToRole, roleToString]

theorem decodeMessages_encode (ms : List Message) :
    decodeMessages (ms.map encodeMessage) = some ms := by
  induction ms with
  | nil => rfl
  | cons m rest ih =>
      simp [decodeMessages, decodeMessage_encodeMessage, ih]

/-- C7: encoding a RequestBody to its wire format and decoding the
result back yields exactly the original body, in particular preserving
the model identifier, the message sequence with order and text, the
max_tokens value, and the presence or absence of the system prompt. -/
theorem requestBody_roundtrip (r : MessagesRequestBody) :
    decodeRequestBody (encodeRequestBody r) = some r := by
  obtain ⟨model, messages, ⟨n⟩, system, stream⟩ := r
  cases system <;> cases stream <;>
    simp [encodeRequestBody, decodeRequestBody, getField, decodeSystem,
          decodeStream, stringToModel_modelToString, decodeMessages_encode]
